import Mathlib

/-!
Shallow embedding of the localtunnel-server tunnel multiplexing core:
`src/lib/TunnelAgent.ts` (the per-tunnel socket pool), the TypeScript
variant of `src/lib/ClientManager.js` (the registry), the upgrade path of
`src/lib/Client.ts`, and the `endOrDestroy` helper of `src/lib/utils.ts`.

Sockets and consumer callbacks are identified by natural-number tokens.
JavaScript numbers that the code can drive below zero (`connectedSockets`,
`stats.tunnels`) are modelled as `Int`; list lengths stay `Nat`.  Side
effects (event emission, socket `end`/`destroy` via `endOrDestroy`,
callback invocation) are modelled as an explicit trace of `PoolEvent`s
returned next to the updated state by each operation, in program order.
-/

/-- State of a `TunnelAgent` socket pool, mirroring the mutable fields of
the `TunnelAgent` class: the FIFO of available sockets (head = oldest),
the FIFO of parked `createConnection` callbacks (head = oldest), the
`connectedSockets` counter, the two caps fixed at construction, and the
`closed` flag set by the server close handler. -/
structure PoolState where
  availableSockets : List Nat
  waitingCreateConn : List Nat
  connectedSockets : Int
  maxTcpSockets : Int
  maxClientSockets : Nat
  closed : Bool
deriving DecidableEq, Repr

/-- Observable effects of a pool operation, in program order:
`online`/`offline`/`endEmit` are emitter events; `deliverQueued c k` is the
deferred (`setTimeout 0`) invocation of queued callback `c` with socket
`k`; `handout k` is the synchronous `cb(null, sock)` inside
`createConnection`; `acquireClosedErr c` is the synchronous
`cb(new Error(closed), null)`; `waitingErrored c` is the flush of a
parked callback with an error in the server close handler; `socketEnded k`
is a call of `endOrDestroy` (FIN, then forced destroy after 1 s) on
socket `k`. -/
inductive PoolEvent where
  | online : PoolEvent
  | offline : PoolEvent
  | endEmit : PoolEvent
  | deliverQueued : Nat → Nat → PoolEvent
  | handout : Nat → PoolEvent
  | acquireClosedErr : Nat → PoolEvent
  | waitingErrored : Nat → PoolEvent
  | socketEnded : Nat → PoolEvent
deriving DecidableEq, Repr

namespace TunnelAgent

/-- Accept handler `TunnelAgent._onConnection`.  Hard-cap rejection, the
`online` emit on a zero counter, the increment, then either direct
delivery to the oldest queued callback (deferred) or a push onto the
available FIFO with overflow eviction of the oldest available socket. -/
def onConnection (s : PoolState) (sock : Nat) : PoolState × List PoolEvent :=
  if s.connectedSockets ≥ s.maxTcpSockets then
    (s, [.socketEnded sock])
  else
    let onlineEvs := if s.connectedSockets = 0 then [PoolEvent.online] else []
    let s1 : PoolState := { s with connectedSockets := s.connectedSockets + 1 }
    match s1.waitingCreateConn with
    | c :: rest =>
      ({ s1 with waitingCreateConn := rest }, onlineEvs ++ [.deliverQueued c sock])
    | [] =>
      let avail := s1.availableSockets ++ [sock]
      if s1.maxClientSockets < avail.length then
        match avail with
        | removed :: rest =>
          ({ s1 with availableSockets := rest,
                     connectedSockets := s1.connectedSockets - 1 },
           onlineEvs ++ [.socketEnded removed])
        | [] => ({ s1 with availableSockets := [] }, onlineEvs)
      else
        ({ s1 with availableSockets := avail }, onlineEvs)

/-- Per-socket close handler installed by `_onConnection` via
`socket.once` on the close event: decrement `connectedSockets`, remove the socket from the
available FIFO if present (`indexOf`/`splice` removes the first
occurrence), and emit `offline` when the counter is `<= 0`.  This handler
stays installed on a socket that the overflow eviction already removed and
counted out. -/
def onSocketClose (s : PoolState) (sock : Nat) : PoolState × List PoolEvent :=
  let s1 : PoolState :=
    { s with connectedSockets := s.connectedSockets - 1,
             availableSockets := s.availableSockets.erase sock }
  (s1, if s1.connectedSockets ≤ 0 then [PoolEvent.offline] else [])

/-- `TunnelAgent.createConnection`: error synchronously when closed,
otherwise shift the oldest available socket and hand it out synchronously,
or park the callback at the tail of the waiting FIFO. -/
def createConnection (s : PoolState) (consumer : Nat) : PoolState × List PoolEvent :=
  if s.closed then
    (s, [.acquireClosedErr consumer])
  else
    match s.availableSockets with
    | sock :: rest => ({ s with availableSockets := rest }, [.handout sock])
    | [] =>
      ({ s with waitingCreateConn := s.waitingCreateConn ++ [consumer] }, [])

/-- Server close handler `TunnelAgent._onClose`: set `closed`, fail every
parked callback with `new Error(closed)` in FIFO order, clear the
waiting FIFO, emit `end`. -/
def onClose (s : PoolState) : PoolState × List PoolEvent :=
  ({ s with closed := true, waitingCreateConn := [] },
   s.waitingCreateConn.map PoolEvent.waitingErrored ++ [PoolEvent.endEmit])

/-- `TunnelAgent.destroy`: `endOrDestroy` every available socket and clear
the available FIFO (the `server.close()` call then leads to `onClose` once
every remaining connection has ended). -/
def destroy (s : PoolState) : PoolState × List PoolEvent :=
  ({ s with availableSockets := [] },
   s.availableSockets.map PoolEvent.socketEnded)

/-- `TunnelAgent.stats`. -/
def stats (s : PoolState) : Int :=
  s.connectedSockets

end TunnelAgent

/-- One externally triggered pool transition: an inbound connection on the
pool port, a `createConnection` call, the `close` event of a socket, or
the `close` event of the listening server. -/
inductive PoolOp where
  | accept : Nat → PoolOp
  | acquire : Nat → PoolOp
  | sockClose : Nat → PoolOp
  | serverClose : PoolOp
deriving DecidableEq, Repr

/-- Dispatch one pool operation to its handler. -/
def step (s : PoolState) : PoolOp → PoolState × List PoolEvent
  | .accept sock => TunnelAgent.onConnection s sock
  | .acquire c => TunnelAgent.createConnection s c
  | .sockClose sock => TunnelAgent.onSocketClose s sock
  | .serverClose => TunnelAgent.onClose s

/-- Run a sequence of pool operations, concatenating the event traces. -/
def run (s : PoolState) : List PoolOp → PoolState × List PoolEvent
  | [] => (s, [])
  | op :: ops =>
    let r1 := step s op
    let r2 := run r1.1 ops
    (r2.1, r1.2 ++ r2.2)

/-- Pool freshly constructed with `maxClientSockets = 1`,
`maxTcpSockets = 2` (the constructor sets the counter to zero, both FIFOs
empty, not closed). -/
def poolInit (maxClient : Nat) (maxTcp : Int) : PoolState :=
  { availableSockets := []
    waitingCreateConn := []
    connectedSockets := 0
    maxTcpSockets := maxTcp
    maxClientSockets := maxClient
    closed := false }

namespace Client

/-- Header reconstruction loop of `Client.handleUpgrade`: for
`i = 0, 2, 4, ...` with `i < rawHeaders.length - 1`, push
`rawHeaders[i] ++ ": " ++ rawHeaders[i+1]`; a trailing odd element is
ignored by the loop bound. -/
def headerLines : List String → List String
  | n :: v :: rest => (n ++ ": " ++ v) :: headerLines rest
  | _ => []

/-- JavaScript `Array.prototype.join` with the CRLF separator: the elements separated by
(not terminated with) the CRLF separator. -/
def joinCRLF : List String → String
  | [] => ""
  | [a] => a
  | a :: b :: rest => a ++ "\r\n" ++ joinCRLF (b :: rest)

/-- Bytes written to the pool socket by `handleUpgrade`: the array
`[request line, header lines..., empty, empty]` joined with CRLF, exactly
as the `arr.join` call of the source produces them. -/
def upgradeHead (method url httpVersion : String) (rawHeaders : List String) : String :=
  joinCRLF ((method ++ " " ++ url ++ " HTTP/" ++ httpVersion)
    :: (headerLines rawHeaders ++ ["", ""]))

/-- Side effects of the `createConnection` callback in
`Client.handleUpgrade`, in program order. -/
inductive UpgradeAction where
  | endPublic : UpgradeAction
  | destroyConn : UpgradeAction
  | pumpConnToPublic : UpgradeAction
  | pumpPublicToConn : UpgradeAction
  | writeConn : String → UpgradeAction
deriving DecidableEq, Repr

/-- The `createConnection` callback of `Client.handleUpgrade`: on an
acquire error, end the public socket; if the public socket became
unreadable or unwritable while waiting, destroy the pool socket and end
the public side; otherwise set up both pumps and write the reconstructed
request head to the pool socket (the write runs in the same synchronous
callback, so it reaches the pool socket before any relayed bytes). -/
def handleUpgradeCb (err readable writable : Bool)
    (method url httpVersion : String) (rawHeaders : List String) : List UpgradeAction :=
  if err then [.endPublic]
  else if !readable || !writable then [.destroyConn, .endPublic]
  else
    [.pumpConnToPublic, .pumpPublicToConn,
     .writeConn (upgradeHead method url httpVersion rawHeaders)]

/-- Pairing of the raw header list, following the words of the spec: the raw
header list taken order-preserving and pair-wise. -/
def headerPairs : List String → List (String × String)
  | n :: v :: rest => (n, v) :: headerPairs rest
  | _ => []

/-- Header block as the spec words it: each raw header pair as
`Name: value` followed by CRLF, in received order. -/
def specHeaderBytes : List (String × String) → String
  | [] => ""
  | p :: rest => p.1 ++ ": " ++ p.2 ++ "\r\n" ++ specHeaderBytes rest

/-- Wire form stated by the spec for the upgrade path:
`"<method> <path> HTTP/<httpVersion>\r\n"`, then each raw header pair as
`"Name: value\r\n"` in received order, terminated by one blank line (a
final `"\r\n\r\n"`). -/
def specUpgradeBytes (method url httpVersion : String) (rawHeaders : List String) : String :=
  method ++ " " ++ url ++ " HTTP/" ++ httpVersion ++ "\r\n"
    ++ specHeaderBytes (headerPairs rawHeaders) ++ "\r\n"

end Client

/-- Join of a list with a cons cell whose tail is non-empty prepends the
head and one separator. -/
theorem joinCRLF_cons_of_ne_nil (a : String) (l : List String) (h : l ≠ []) :
    Client.joinCRLF (a :: l) = a ++ "\r\n" ++ Client.joinCRLF l := by
  rcases l with _ | ⟨b, t⟩
  · exact absurd rfl h
  · rfl

/-- The joined header lines followed by the two empty strings equal the
header block of the spec followed by the final CRLF. -/
theorem joinCRLF_headerLines (raw : List String) :
    Client.joinCRLF (Client.headerLines raw ++ ["", ""])
      = Client.specHeaderBytes (Client.headerPairs raw) ++ "\r\n" := by
  induction raw using Client.headerLines.induct with
  | case1 n v rest ih =>
    rw [Client.headerLines, Client.headerPairs, List.cons_append,
      joinCRLF_cons_of_ne_nil _ _ (by simp), ih, Client.specHeaderBytes]
    simp [String.append_assoc]
  | case2 l h1 =>
    rcases l with _ | ⟨x, _ | ⟨y, t⟩⟩
    · rfl
    · rfl
    · exact absurd rfl (h1 x y t)

/-- Refinement: the bytes produced by the `arr.join` based
construction are exactly the wire form the spec describes. -/
theorem upgradeHead_eq_specUpgradeBytes (method url httpVersion : String)
    (raw : List String) :
    Client.upgradeHead method url httpVersion raw
      = Client.specUpgradeBytes method url httpVersion raw := by
  rw [Client.upgradeHead, Client.specUpgradeBytes,
    joinCRLF_cons_of_ne_nil _ _ (by simp), joinCRLF_headerLines]
  simp [String.append_assoc]

/-- Recognizer for the deferred queued-consumer deliveries in a trace. -/
def isDeliverEv : PoolEvent → Bool
  | .deliverQueued _ _ => true
  | _ => false

/-- State of a `ClientManager` (TypeScript variant): the `id → Client` map
modelled as an association list in insertion order with unique keys (a JS
`Map`), the `stats.tunnels` counter, and a fresh-token supply standing for
allocation of new `Client` objects (distinct tokens are distinct
clients). -/
structure Registry where
  clients : List (String × Nat)
  tunnels : Int
  nextClient : Nat
deriving DecidableEq, Repr

/-- Observable effects of a registry operation: `clientClosed c` is the
`client.close()` call made by `removeClient` (which destroys the agent of
the client and so closes its pool). -/
inductive RegEvent where
  | clientClosed : Nat → RegEvent
deriving DecidableEq, Repr

namespace ClientManager

/-- `ClientManager.getClient`: `Map.get`. -/
def getClient (r : Registry) (id : String) : Option Nat :=
  (r.clients.find? (fun p => p.1 == id)).map (fun p => p.2)

/-- `ClientManager.hasClient`: `Map.has`. -/
def hasClient (r : Registry) (id : String) : Bool :=
  (r.clients.find? (fun p => p.1 == id)).isSome

/-- `ClientManager.removeClient`: if the id is present, decrement
`stats.tunnels` (unconditionally), delete the map entry, and close the
client. -/
def removeClient (r : Registry) (id : String) : Registry × List RegEvent :=
  match getClient r id with
  | none => (r, [])
  | some c =>
    ({ r with tunnels := r.tunnels - 1,
              clients := r.clients.eraseP (fun p => p.1 == id) },
     [.clientClosed c])

/-- `ClientManager.newClient` (TypeScript variant).  `listenOk` stands for
whether `agent.listen()` resolves or rejects.  Collision: if the id is
already present, `removeClient` it first.  A fresh client is allocated and
inserted into the map before the listen; on success `stats.tunnels` is
incremented and the client token returned; on failure `removeClient` runs
in the catch block and the error propagates (`none`). -/
def newClient (r : Registry) (id : String) (listenOk : Bool) :
    Registry × Option Nat × List RegEvent :=
  let rm := if hasClient r id then removeClient r id else (r, [])
  let r1 := rm.1
  let c := r1.nextClient
  let r2 : Registry :=
    { r1 with clients := r1.clients ++ [(id, c)], nextClient := r1.nextClient + 1 }
  if listenOk then
    ({ r2 with tunnels := r2.tunnels + 1 }, some c, rm.2)
  else
    let rm2 := removeClient r2 id
    (rm2.1, none, rm.2 ++ rm2.2)

end ClientManager

/-- Registry as freshly constructed: empty map, `tunnels = 0`. -/
def freshRegistry : Registry :=
  { clients := [], tunnels := 0, nextClient := 0 }

/-- Running a concatenation of operation lists runs them in sequence and
concatenates the traces. -/
theorem run_append (s : PoolState) (l1 l2 : List PoolOp) :
    run s (l1 ++ l2)
      = ((run (run s l1).1 l2).1, (run s l1).2 ++ (run (run s l1).1 l2).2) := by
  induction l1 generalizing s with
  | nil => simp [run]
  | cons op ops ih => simp [run, ih, List.append_assoc]

/-- Reduction of the accept handler when a consumer is queued and the hard
cap is not reached: the oldest queued callback is popped and the socket is
delivered to it, bypassing the available FIFO. -/
theorem onConnection_queued_delivers (avail : List Nat) (c : Nat) (cs : List Nat)
    (conn maxT : Int) (maxC : Nat) (cl : Bool) (k : Nat) (hlt : conn < maxT) :
    TunnelAgent.onConnection ⟨avail, c :: cs, conn, maxT, maxC, cl⟩ k
      = (⟨avail, cs, conn + 1, maxT, maxC, cl⟩,
         (if conn = 0 then [PoolEvent.online] else []) ++ [.deliverQueued c k]) := by
  rw [TunnelAgent.onConnection, if_neg (not_le.mpr hlt)]

/-- Reduction of `createConnection` on an open pool with an empty
available FIFO: the callback is parked at the tail of the waiting
FIFO. -/
theorem createConnection_empty_queues (waiting : List Nat)
    (conn maxT : Int) (maxC : Nat) (c : Nat) :
    TunnelAgent.createConnection ⟨[], waiting, conn, maxT, maxC, false⟩ c
      = (⟨[], waiting ++ [c], conn, maxT, maxC, false⟩, []) := by
  rw [TunnelAgent.createConnection, if_neg (by simp)]

/-- Running a block of `acquire`s against an open pool with no available
sockets parks every callback, in order, at the tail of the waiting FIFO
and produces no events. -/
theorem run_acquires_queue (cs : List Nat) (s : PoolState)
    (hc : s.closed = false) (ha : s.availableSockets = []) :
    run s (cs.map PoolOp.acquire)
      = ({ s with waitingCreateConn := s.waitingCreateConn ++ cs }, []) := by
  induction cs generalizing s with
  | nil => simp [run]
  | cons c cs ih =>
    obtain ⟨avail, waiting, conn, maxT, maxC, cl⟩ := s
    simp only at hc ha
    subst hc; subst ha
    simp only [List.map_cons, run, step]
    rw [createConnection_empty_queues, ih _ rfl rfl]
    simp

/-- Running a block of `accept`s against a pool whose waiting FIFO holds
exactly as many queued consumers delivers the sockets to the consumers
pairwise in FIFO order: the i-th accepted socket goes to the i-th queued
consumer. -/
theorem run_accepts_deliver (ss cs : List Nat) (s : PoolState)
    (hw : s.waitingCreateConn = cs) (hlen : ss.length = cs.length)
    (hcap : s.connectedSockets + (ss.length : Int) ≤ s.maxTcpSockets) :
    ((run s (ss.map PoolOp.accept)).2).filter isDeliverEv
      = (cs.zip ss).map (fun p => PoolEvent.deliverQueued p.1 p.2) := by
  induction ss generalizing cs s with
  | nil =>
    rcases cs with _ | ⟨c, cs⟩
    · simp [run]
    · simp at hlen
  | cons k ss ih =>
    rcases cs with _ | ⟨c, cs⟩
    · simp at hlen
    · obtain ⟨avail, waiting, conn, maxT, maxC, cl⟩ := s
      simp only at hw hcap
      subst hw
      have hlt : conn < maxT := by
        simp only [List.length_cons] at hcap
        omega
      simp only [List.map_cons, run, step]
      rw [onConnection_queued_delivers avail c cs conn maxT maxC cl k hlt]
      have ihe := ih cs ⟨avail, cs, conn + 1, maxT, maxC, cl⟩ rfl
        (by simpa using hlen) (by simp only [List.length_cons] at hcap ⊢; push_cast at hcap ⊢; omega)
      simp only [List.filter_append] at ihe ⊢
      rw [ihe]
      by_cases hz : conn = 0 <;> simp [hz, isDeliverEv]

/-- Claim C5: sockets are delivered to pending consumers in FIFO order of
consumer arrival, and drawn from the available pool in FIFO order of
insertion: if consumers `cs` queue on an open pool with no available
sockets and sockets `ss` then arrive (within the hard cap), the trace of
queued-consumer deliveries is exactly the pairwise zip, i-th socket to
i-th consumer; and the draw from the available pool is the shift of its
oldest (head) element. -/
theorem consumers_served_in_fifo_order (cs ss : List Nat) (s : PoolState)
    (hc : s.closed = false) (ha : s.availableSockets = [])
    (hw : s.waitingCreateConn = []) (hlen : ss.length = cs.length)
    (hcap : s.connectedSockets + (ss.length : Int) ≤ s.maxTcpSockets) :
    ((run s (cs.map PoolOp.acquire ++ ss.map PoolOp.accept)).2).filter isDeliverEv
      = (cs.zip ss).map (fun p => PoolEvent.deliverQueued p.1 p.2)
    ∧ (∀ (t : PoolState) (c k : Nat) (rest : List Nat),
        t.closed = false → t.availableSockets = k :: rest →
        (TunnelAgent.createConnection t c).2 = [.handout k]) := by
  constructor
  · rw [run_append, run_acquires_queue cs s hc ha]
    simp only [List.filter_append]
    rw [List.filter_eq_nil_iff.mpr (by intro a ha2; cases ha2)]
    rw [List.nil_append]
    exact run_accepts_deliver ss cs _ (by simp [hw]) hlen (by simpa using hcap)
  · intro t c k rest htc hta
    rw [TunnelAgent.createConnection, if_neg (by rw [htc]; exact Bool.false_ne_true), hta]

/-- Witness for `consumers_served_in_fifo_order`: two consumers queue on a
fresh pool, then sockets 3 and 4 arrive; consumer 7 gets socket 3 and
consumer 8 gets socket 4. -/
theorem consumers_served_in_fifo_order_witness :
    ((run (poolInit 2 4)
        ([7, 8].map PoolOp.acquire ++ [3, 4].map PoolOp.accept)).2).filter isDeliverEv
      = (([7, 8] : List Nat).zip [3, 4]).map
          (fun p => PoolEvent.deliverQueued p.1 p.2)
    ∧ (∀ (t : PoolState) (c k : Nat) (rest : List Nat),
        t.closed = false → t.availableSockets = k :: rest →
        (TunnelAgent.createConnection t c).2 = [.handout k]) :=
  consumers_served_in_fifo_order [7, 8] [3, 4] (poolInit 2 4)
    rfl rfl rfl rfl (by decide)

/-- Claim C1: the spec asserts `connectedSockets` always equals the number
of accepted-and-not-yet-closed sockets and in particular is never
negative.  The code violates this: with `maxClientSockets = 1`, accepting
socket 1 then socket 2 evicts socket 1 (decrementing the counter once),
and the still-installed close handler of socket 1 decrements again when the
evicted socket finishes closing.  After `[accept 1, accept 2, sockClose 1]`
the counter is 0 while socket 2 is still open and sitting in the available
FIFO; after socket 2 also closes the counter is -1. -/
theorem connectedSockets_double_decrement_after_eviction :
    (run (poolInit 1 2) [.accept 1, .accept 2, .sockClose 1]).1.connectedSockets = 0
    ∧ (run (poolInit 1 2) [.accept 1, .accept 2, .sockClose 1]).1.availableSockets = [2]
    ∧ (run (poolInit 1 2)
        [.accept 1, .accept 2, .sockClose 1, .sockClose 2]).1.connectedSockets = -1 := by
  decide

/-- Claim C2: the spec asserts `offline` fires exactly on the N→0
transition of open sockets and never while some socket remains open, and
`online` never fires while sockets are already open.  On the trace
`[accept 1, accept 2, sockClose 1]` the code emits `offline` (its counter
reached 0 through the eviction double-decrement) while socket 2 is still
open in the available FIFO; after socket 2 also closes, `offline` is
emitted a second time (the guard is `connectedSockets <= 0`), so one
sequence of closes yields two `offline` emissions. -/
theorem offline_emitted_while_socket_open :
    (run (poolInit 1 2) [.accept 1, .accept 2, .sockClose 1]).2
      = [.online, .socketEnded 1, .offline]
    ∧ (run (poolInit 1 2) [.accept 1, .accept 2, .sockClose 1]).1.availableSockets = [2]
    ∧ ((run (poolInit 1 2)
        [.accept 1, .accept 2, .sockClose 1, .sockClose 2]).2.count PoolEvent.offline) = 2 := by
  decide

/-- Erasing the unique entry with a given key leaves no entry with that
key to be found. -/
theorem find?_eraseP_key_none (l : List (String × Nat)) (id : String)
    (hkeys : (l.map Prod.fst).Nodup) :
    (l.eraseP (fun p => p.1 == id)).find? (fun p => p.1 == id) = none := by
  induction l with
  | nil => rfl
  | cons a l ih =>
    simp only [List.map_cons, List.nodup_cons] at hkeys
    simp only [List.eraseP_cons]
    by_cases hpa : (a.1 == id) = true
    · rw [hpa, cond_true, List.find?_eq_none]
      intro x hx hpx
      have h1 : x.1 = id := by simpa using hpx
      have h2 : a.1 = id := by simpa using hpa
      exact hkeys.1 (by rw [h2, ← h1]; exact List.mem_map_of_mem Prod.fst hx)
    · have hfa : (a.1 == id) = false := by simpa using hpa
      rw [hfa, cond_false, List.find?_cons, hfa]
      exact ih hkeys.2

/-- Claim C8: `newClient` on an id already present replaces the tunnel:
the lookup before returns the old client and after returns the freshly
allocated one (distinct from the old), the old client is closed (which
destroys its agent and so its pool), and both the `tunnels` counter and
the number of map entries are unchanged by the replacement.  The
hypotheses say the map has unique keys and every stored client token was
allocated from the supply, both true of every reachable registry. -/
theorem create_existing_id_replaces (r : Registry) (id : String) (old : Nat)
    (hold : ClientManager.getClient r id = some old)
    (hkeys : (r.clients.map Prod.fst).Nodup)
    (hfresh : ∀ p ∈ r.clients, p.2 < r.nextClient) :
    ClientManager.getClient (ClientManager.newClient r id true).1 id = some r.nextClient
    ∧ old ≠ r.nextClient
    ∧ RegEvent.clientClosed old ∈ (ClientManager.newClient r id true).2.2
    ∧ (ClientManager.newClient r id true).1.tunnels = r.tunnels
    ∧ (ClientManager.newClient r id true).1.clients.length = r.clients.length := by
  have hold2 := hold
  unfold ClientManager.getClient at hold2
  obtain ⟨pr, hfind, hsnd⟩ := Option.map_eq_some'.mp hold2
  have hmem : pr ∈ r.clients := List.mem_of_find?_eq_some hfind
  have hpa0 := List.find?_some hfind
  have hpa : (pr.1 == id) = true := hpa0
  have hlt : old < r.nextClient := hsnd ▸ hfresh pr hmem
  have hpos : 0 < r.clients.length := List.length_pos_of_mem hmem
  have hhas : ClientManager.hasClient r id = true := by
    unfold ClientManager.hasClient
    rw [hfind]
    rfl
  have hrm : ClientManager.removeClient r id
      = ({ r with tunnels := r.tunnels - 1,
                  clients := r.clients.eraseP (fun p => p.1 == id) },
         [RegEvent.clientClosed old]) := by
    unfold ClientManager.removeClient
    rw [hold]
  have hnew : ClientManager.newClient r id true
      = ({ clients := r.clients.eraseP (fun p => p.1 == id) ++ [(id, r.nextClient)],
           tunnels := r.tunnels - 1 + 1,
           nextClient := r.nextClient + 1 },
         some r.nextClient, [RegEvent.clientClosed old]) := by
    unfold ClientManager.newClient
    rw [hhas, hrm]
    rfl
  refine ⟨?_, by omega, ?_, ?_, ?_⟩
  · rw [hnew]
    unfold ClientManager.getClient
    simp only [List.find?_append, find?_eraseP_key_none r.clients id hkeys,
      Option.none_or]
    simp
  · rw [hnew]
    simp
  · rw [hnew]
    show r.tunnels - 1 + 1 = r.tunnels
    omega
  · rw [hnew]
    have hlen2 : (r.clients.eraseP (fun q => q.1 == id)).length = r.clients.length - 1 :=
      List.length_eraseP_of_mem (p := fun q => q.1 == id) hmem hpa
    simp only [List.length_append, hlen2, List.length_singleton]
    omega

/-- Witness for `create_existing_id_replaces` on a registry holding one
tunnel named `abcd`. -/
theorem create_existing_id_replaces_witness :
    ClientManager.getClient
        (ClientManager.newClient
          { clients := [("abcd", 0)], tunnels := 1, nextClient := 1 } "abcd" true).1 "abcd"
      = some ({ clients := [("abcd", 0)], tunnels := 1, nextClient := 1 } : Registry).nextClient
    ∧ 0 ≠ ({ clients := [("abcd", 0)], tunnels := 1, nextClient := 1 } : Registry).nextClient
    ∧ RegEvent.clientClosed 0
        ∈ (ClientManager.newClient
            { clients := [("abcd", 0)], tunnels := 1, nextClient := 1 } "abcd" true).2.2
    ∧ (ClientManager.newClient
          { clients := [("abcd", 0)], tunnels := 1, nextClient := 1 } "abcd" true).1.tunnels = 1
    ∧ (ClientManager.newClient
          { clients := [("abcd", 0)], tunnels := 1, nextClient := 1 } "abcd" true).1.clients.length
        = ({ clients := [("abcd", 0)], tunnels := 1, nextClient := 1 } : Registry).clients.length :=
  create_existing_id_replaces
    { clients := [("abcd", 0)], tunnels := 1, nextClient := 1 } "abcd" 0
    (by decide) (by decide) (by decide)

/-- Claim C3: the spec asserts `stats.tunnels` equals the number of live
entries of the `id → Client` map at quiescence and never goes negative,
including after a `newClient` whose pool start fails.  The code violates
this: on a fresh registry, `newClient "abcd"` with a failing
`agent.listen()` runs `removeClient` in the catch block, which decrements
`stats.tunnels` even though the increment only happens on listen success.
The result is an empty map with `tunnels = -1`. -/
theorem tunnels_negative_after_listen_failure :
    (ClientManager.newClient freshRegistry "abcd" false).1.tunnels = -1
    ∧ (ClientManager.newClient freshRegistry "abcd" false).1.clients = [] := by
  decide

/-- Claim C4: once the pool is closed, every `createConnection` delivers
the terminal closed error synchronously, hands out no socket, and leaves
the state untouched; and the server close handler itself fails every
parked consumer with the terminal error in FIFO order, clears the waiting
FIFO, and sets the `closed` flag (after which the listener accepts no
further connections, so no accept transitions occur either). -/
theorem createConnection_after_close_errors (s : PoolState) (consumer : Nat)
    (h : s.closed = true) :
    TunnelAgent.createConnection s consumer = (s, [.acquireClosedErr consumer])
    ∧ (∀ t : PoolState,
        (TunnelAgent.onClose t).1.closed = true
        ∧ (TunnelAgent.onClose t).1.waitingCreateConn = []
        ∧ (TunnelAgent.onClose t).2
            = t.waitingCreateConn.map PoolEvent.waitingErrored ++ [PoolEvent.endEmit]) := by
  constructor
  · simp [TunnelAgent.createConnection, h]
  · intro t
    exact ⟨rfl, rfl, rfl⟩

/-- Witness for `createConnection_after_close_errors` at a concrete closed
pool. -/
theorem createConnection_after_close_errors_witness :
    TunnelAgent.createConnection
        { availableSockets := [5], waitingCreateConn := [], connectedSockets := 1,
          maxTcpSockets := 2, maxClientSockets := 1, closed := true } 9
      = ({ availableSockets := [5], waitingCreateConn := [], connectedSockets := 1,
           maxTcpSockets := 2, maxClientSockets := 1, closed := true },
         [.acquireClosedErr 9])
    ∧ (∀ t : PoolState,
        (TunnelAgent.onClose t).1.closed = true
        ∧ (TunnelAgent.onClose t).1.waitingCreateConn = []
        ∧ (TunnelAgent.onClose t).2
            = t.waitingCreateConn.map PoolEvent.waitingErrored ++ [PoolEvent.endEmit]) :=
  createConnection_after_close_errors _ 9 rfl

/-- Claim C7: an inbound connection arriving with
`connectedSockets ≥ maxTcpSockets` is gracefully ended at once and every
component of the pool state is left unchanged; consequently every accept
preserves `connectedSockets ≤ maxTcpSockets`. -/
theorem accept_at_hard_cap_rejects (s : PoolState) (sock : Nat)
    (h : s.maxTcpSockets ≤ s.connectedSockets) :
    TunnelAgent.onConnection s sock = (s, [.socketEnded sock])
    ∧ (∀ (t : PoolState) (k : Nat), t.connectedSockets ≤ t.maxTcpSockets →
        (TunnelAgent.onConnection t k).1.connectedSockets ≤ t.maxTcpSockets) := by
  constructor
  · rw [TunnelAgent.onConnection, if_pos h]
  · intro t k hle
    obtain ⟨avail, waiting, conn, maxT, maxC, cl⟩ := t
    rcases waiting with _ | ⟨c, wrest⟩ <;>
      rcases avail with _ | ⟨a, arest⟩ <;>
        simp only [TunnelAgent.onConnection] <;>
          split_ifs <;> simp_all <;> omega

/-- Witness for `accept_at_hard_cap_rejects` at a concrete saturated
pool. -/
theorem accept_at_hard_cap_rejects_witness :
    TunnelAgent.onConnection
        { availableSockets := [3, 4], waitingCreateConn := [], connectedSockets := 2,
          maxTcpSockets := 2, maxClientSockets := 2, closed := false } 7
      = ({ availableSockets := [3, 4], waitingCreateConn := [], connectedSockets := 2,
           maxTcpSockets := 2, maxClientSockets := 2, closed := false },
         [.socketEnded 7])
    ∧ (∀ (t : PoolState) (k : Nat), t.connectedSockets ≤ t.maxTcpSockets →
        (TunnelAgent.onConnection t k).1.connectedSockets ≤ t.maxTcpSockets) :=
  accept_at_hard_cap_rejects _ 7 (by decide)

/-- Claim C6: when an accepted socket is pushed onto the available FIFO
and the push takes its length above `maxClientSockets`, the oldest
available socket is popped, handed to `endOrDestroy` (FIN then forced
destroy after 1 s), and `connectedSockets` is decremented back; and every
accept preserves `|available| ≤ maxClientSockets`. -/
theorem accept_overflow_evicts_oldest (s : PoolState) (sock : Nat)
    (hcap : s.connectedSockets < s.maxTcpSockets)
    (hw : s.waitingCreateConn = [])
    (hover : s.maxClientSockets < s.availableSockets.length + 1) :
    (TunnelAgent.onConnection s sock).1.availableSockets
        = (s.availableSockets ++ [sock]).tail
    ∧ (TunnelAgent.onConnection s sock).1.connectedSockets
        = s.connectedSockets + 1 - 1
    ∧ PoolEvent.socketEnded ((s.availableSockets ++ [sock]).headI)
        ∈ (TunnelAgent.onConnection s sock).2
    ∧ (∀ (t : PoolState) (k : Nat),
        t.availableSockets.length ≤ t.maxClientSockets →
        (TunnelAgent.onConnection t k).1.availableSockets.length ≤ t.maxClientSockets) := by
  have hno : ¬ s.connectedSockets ≥ s.maxTcpSockets := not_le.mpr hcap
  refine ⟨?_, ?_, ?_, ?_⟩
  · obtain ⟨avail, waiting, conn, maxT, maxC, cl⟩ := s
    simp only at hw
    subst hw
    rcases avail with _ | ⟨a, arest⟩ <;>
      simp_all [TunnelAgent.onConnection, not_le.mpr hcap]
  · obtain ⟨avail, waiting, conn, maxT, maxC, cl⟩ := s
    simp only at hw
    subst hw
    rcases avail with _ | ⟨a, arest⟩ <;>
      simp_all [TunnelAgent.onConnection, not_le.mpr hcap]
  · obtain ⟨avail, waiting, conn, maxT, maxC, cl⟩ := s
    simp only at hw
    subst hw
    rcases avail with _ | ⟨a, arest⟩ <;>
      simp_all [TunnelAgent.onConnection, not_le.mpr hcap]
  · intro t k hle
    obtain ⟨avail, waiting, conn, maxT, maxC, cl⟩ := t
    rcases waiting with _ | ⟨c, wrest⟩ <;>
      rcases avail with _ | ⟨a, arest⟩ <;>
        simp only [TunnelAgent.onConnection] <;>
          split_ifs <;> simp_all <;> omega

/-- Witness for `accept_overflow_evicts_oldest`: a pool with
`maxClientSockets = 1` holding one available socket accepts a second
one. -/
theorem accept_overflow_evicts_oldest_witness :
    (TunnelAgent.onConnection
        { availableSockets := [3], waitingCreateConn := [], connectedSockets := 2,
          maxTcpSockets := 4, maxClientSockets := 1, closed := false } 7).1.availableSockets
        = (([3] : List Nat) ++ [7]).tail
    ∧ (TunnelAgent.onConnection
        { availableSockets := [3], waitingCreateConn := [], connectedSockets := 2,
          maxTcpSockets := 4, maxClientSockets := 1, closed := false } 7).1.connectedSockets
        = 2 + 1 - 1
    ∧ PoolEvent.socketEnded ((([3] : List Nat) ++ [7]).headI)
        ∈ (TunnelAgent.onConnection
            { availableSockets := [3], waitingCreateConn := [], connectedSockets := 2,
              maxTcpSockets := 4, maxClientSockets := 1, closed := false } 7).2
    ∧ (∀ (t : PoolState) (k : Nat),
        t.availableSockets.length ≤ t.maxClientSockets →
        (TunnelAgent.onConnection t k).1.availableSockets.length ≤ t.maxClientSockets) :=
  accept_overflow_evicts_oldest _ 7 (by decide) rfl (by decide)

/-- Claim C10: `createConnection` on an open pool with a non-empty
available FIFO invokes the callback exactly once, synchronously, with no
error and with the oldest available socket, which is removed; the waiting
FIFO and `connectedSockets` are untouched. -/
theorem createConnection_nonempty_synchronous (s : PoolState)
    (consumer sock : Nat) (rest : List Nat)
    (hc : s.closed = false) (ha : s.availableSockets = sock :: rest) :
    TunnelAgent.createConnection s consumer
      = ({ s with availableSockets := rest }, [.handout sock]) := by
  rw [TunnelAgent.createConnection, if_neg (by rw [hc]; exact Bool.false_ne_true)]
  rw [ha]

/-- Witness for `createConnection_nonempty_synchronous` at a concrete
pool holding two available sockets. -/
theorem createConnection_nonempty_synchronous_witness :
    TunnelAgent.createConnection
        { availableSockets := [5, 6], waitingCreateConn := [], connectedSockets := 2,
          maxTcpSockets := 4, maxClientSockets := 2, closed := false } 9
      = ({ availableSockets := [6], waitingCreateConn := [], connectedSockets := 2,
           maxTcpSockets := 4, maxClientSockets := 2, closed := false },
         [.handout 5]) :=
  createConnection_nonempty_synchronous _ 9 5 [6] rfl rfl

/-- Claim C9: when Acquire succeeds and the public socket is still
readable and writable, `handleUpgrade` writes to the pool socket exactly
the request line `"<method> <path> HTTP/<httpVersion>\r\n"`, each raw
header pair `"Name: value\r\n"` in received order, and one terminating
blank line, in the same synchronous callback that installs the two pumps
(so before any relayed bytes); when Acquire errors, the public socket is
ended; when the public socket has become unreadable or unwritable, the
pool socket is destroyed and the public side ended. -/
theorem handleUpgrade_wire_format (readable writable : Bool)
    (method url httpVersion : String) (raw : List String) :
    Client.handleUpgradeCb true readable writable method url httpVersion raw
        = [.endPublic]
    ∧ ((readable && writable) = false →
        Client.handleUpgradeCb false readable writable method url httpVersion raw
          = [.destroyConn, .endPublic])
    ∧ (readable = true → writable = true →
        Client.handleUpgradeCb false readable writable method url httpVersion raw
          = [.pumpConnToPublic, .pumpPublicToConn,
             .writeConn (Client.specUpgradeBytes method url httpVersion raw)]) := by
  refine ⟨rfl, ?_, ?_⟩
  · intro h
    rcases readable <;> rcases writable <;> simp_all [Client.handleUpgradeCb]
  · intro hr hw
    subst hr; subst hw
    rw [Client.handleUpgradeCb]
    simp only [Bool.false_eq_true, if_false, Bool.not_true, Bool.or_self,
      upgradeHead_eq_specUpgradeBytes]

/-- Witness for `handleUpgrade_wire_format` on a concrete upgrade request
with two raw header pairs. -/
theorem handleUpgrade_wire_format_witness :
    Client.handleUpgradeCb true true true "GET" "/x" "1.1"
        ["Host", "abcd.example", "Upgrade", "websocket"]
        = [.endPublic]
    ∧ ((true && true) = false →
        Client.handleUpgradeCb false true true "GET" "/x" "1.1"
            ["Host", "abcd.example", "Upgrade", "websocket"]
          = [.destroyConn, .endPublic])
    ∧ (true = true → true = true →
        Client.handleUpgradeCb false true true "GET" "/x" "1.1"
            ["Host", "abcd.example", "Upgrade", "websocket"]
          = [.pumpConnToPublic, .pumpPublicToConn,
             .writeConn (Client.specUpgradeBytes "GET" "/x" "1.1"
               ["Host", "abcd.example", "Upgrade", "websocket"])]) :=
  handleUpgrade_wire_format true true "GET" "/x" "1.1"
    ["Host", "abcd.example", "Upgrade", "websocket"]
